import Mathlib

/-!
# spatch: a shallow embedding of `respatch.c`

The gateway is modelled function by function.  The SSH library and the
configuration loader are outside the source file; their results enter the model
as explicit inputs (message lists, byte streams, result codes) and every call
with a visible effect leaves an `Event` in a trace.

Conventions
* a `char` is an `Int` (the value of the C object, whichever signedness the
  platform gives to `char`);
* a `CStr` is the content of a NUL-terminated string (the bytes before the NUL);
* a `char` array is a `List CChar` of the array's length;
* the operator log written with `printf`/`fprintf` and the wall clock are not
  part of the model.
-/

set_option autoImplicit false

namespace Spatch

/-! ## Characters, strings and libc helpers -/

abbrev CChar := Int

abbrev CStr := List CChar

/-- The C string held in a `char` array: the bytes before the first NUL. -/
def cstr (buffer : List CChar) : CStr :=
  buffer.takeWhile (fun c => decide (c ≠ 0))

/-- Sign of `strcmp` on string contents, bytes compared as `unsigned char`;
the end of a string compares below every byte. -/
def strcmp : CStr → CStr → Int
  | [], [] => 0
  | [], _ :: _ => -1
  | _ :: _, [] => 1
  | a :: as, b :: bs =>
    if a = b then strcmp as bs
    else if a % 256 < b % 256 then -1 else 1

/-- C-locale `tolower`. -/
def tolower (c : CChar) : CChar :=
  if 65 ≤ c ∧ c ≤ 90 then c + 32 else c

/-- The libc `strncasecmp` on two `char` arrays read from their start: at most
`n` positions are compared after `tolower`, stopping at a NUL. -/
def strncasecmp : List CChar → List CChar → Nat → Int
  | _, _, 0 => 0
  | s1, s2, n + 1 =>
    let c1 := tolower (s1.headD 0)
    let c2 := tolower (s2.headD 0)
    if c1 ≠ c2 then c1 - c2
    else if c1 = 0 then 0
    else strncasecmp s1.tail s2.tail n

/-- What `snprintf(buf, size, ...)` leaves in `buf`: the formatted text cut to
`size - 1` bytes. -/
def snprintf (size : Nat) (text : CStr) : CStr :=
  text.take (size - 1)

/-- What `strncpy(dst, src, n)` leaves as the string in `dst` (for a source of
`n` bytes or more no NUL is stored and the first `n` bytes are kept). -/
def strncpy (n : Nat) (src : CStr) : CStr :=
  src.take n

/-! ## Trace of library calls -/

inductive Chan where
  | client
  | server
  deriving DecidableEq, Repr

/-- One library call with a visible effect.  A write records the bytes handed
over that lie inside the source array and the length argument as received by
the callee (a `uint32_t`). -/
inductive Event where
  | write (chan : Chan) (is_stderr : Bool) (bytes : List CChar) (len : Nat)
  | auth_reply_success
  | channel_open_reply_accept
  | channel_request_reply_success
  | reply_default
  | ssh_connect (host : CStr) (port : Int)
  | ssh_userauth_password (user password : CStr)
  | ssh_write_knownhost
  | ssh_channel_new
  | ssh_channel_open_session
  | ssh_channel_request_pty
  | ssh_channel_request_shell
  | ssh_channel_change_pty_size (cols rows : Int)
  deriving DecidableEq, Repr

/-- The call `ssh_channel_write(chan, s, strlen(s))`. -/
def Event.puts (chan : Chan) (s : CStr) : Event :=
  Event.write chan false s s.length

/-- The call `ssh_channel_write_stderr(chan, s, strlen(s))`. -/
def Event.puts_stderr (chan : Chan) (s : CStr) : Event :=
  Event.write chan true s s.length

/-! ## Line editor: `channel_get_line` -/

/-- The locals of `channel_get_line`; `stores` logs the index of every
assignment to `buffer[...]`, `out` the writes to the channel. -/
structure LineState where
  buffer : List CChar
  pos : Nat
  out : List Event
  stores : List Nat
  deriving DecidableEq, Repr

/-- The assignment `buffer[i] = c`. -/
def LineState.store (st : LineState) (i : Nat) (c : CChar) : LineState :=
  { st with buffer := st.buffer.set i c, stores := st.stores ++ [i] }

/-- The call `ssh_channel_write(chan, bytes, len)` with `len` the length of `bytes`. -/
def LineState.write (st : LineState) (bytes : List CChar) : LineState :=
  { st with out := st.out ++ [Event.puts Chan.client bytes] }

/-- The loop `for (int i = 0; i < pos; i++) ssh_channel_write(chan, " ", 1);`. -/
def LineState.spaces (st : LineState) : Nat → LineState
  | 0 => st
  | n + 1 => (st.write [32]).spaces n

/-- The `while (1)` loop of `channel_get_line`.  `input` is what the channel
still delivers, one byte per `ssh_channel_read`; once it is used up the read
does not return 1.  The result is the final state and the unread input. -/
def channel_get_line_loop (bufflen : Nat) : List CChar → LineState → LineState × List CChar
  | [], st => (st, [])
  | c :: rest, st =>
    let st1 := if c > 31 then st.store st.pos c else st
    let st2 := st1.write [c]
    if c = 127 then
      let st3 := st2.write [13]
      let st4 := st3.spaces st3.pos
      let st5 := if st4.pos > 0 then { st4.store (st4.pos - 1) 0 with pos := st4.pos - 1 } else st4
      let st6 := st5.write [13]
      let st7 := st6.write (cstr st6.buffer)
      channel_get_line_loop bufflen rest st7
    else if c = 13 then
      (st2.write [13, 10], rest)
    else if (st2.pos : Int) < (bufflen : Int) - 2 then
      channel_get_line_loop bufflen rest { st2 with pos := st2.pos + 1 }
    else
      channel_get_line_loop bufflen rest st2

/-- The function `channel_get_line(chan, buffer, bufflen)`: `bzero`, then the loop. -/
def channel_get_line (bufflen : Nat) (input : List CChar) : LineState × List CChar :=
  channel_get_line_loop bufflen input
    { buffer := List.replicate bufflen 0, pos := 0, out := [], stores := [] }

/-- The line a caller finds in `buffer` after `channel_get_line`. -/
def get_line (bufflen : Nat) (input : List CChar) : CStr :=
  cstr (channel_get_line bufflen input).1.buffer

/-! ## Credential directory and backends

The header `parse.h` is not part of the source file; the three record types are
read off the field accesses of `respatch.c`, linked lists becoming `List`s. -/

/-- A `{user, password}` pair (`spatch`, `serv1`, ..., and the `user` field of
an ACL cell). -/
structure cred where
  user : CStr
  password : CStr
  deriving DecidableEq, Repr

/-- The record `struct serv`: display address, port and ACL (`listuser`). -/
structure serv where
  adresse : CStr
  port : Int
  listuser : List cred
  deriving DecidableEq, Repr

/-- The record `struct loginserv`: the gateway identity and one credential
pair per backend. -/
structure loginserv where
  spatch : cred
  serv1 : cred
  serv2 : cred
  serv3 : cred
  deriving DecidableEq, Repr

/-- The globals `server1`, `server2`, `server3` and `logserv`. -/
structure Globals where
  server1 : serv
  server2 : serv
  server3 : serv
  logserv : List loginserv
  deriving DecidableEq, Repr

/-- The address of one of the three global `struct serv` objects. -/
inductive ServPtr where
  | server1
  | server2
  | server3
  deriving DecidableEq, Repr

/-- Dereference of a `struct serv *`. -/
def Globals.deref (g : Globals) : ServPtr → serv
  | ServPtr.server1 => g.server1
  | ServPtr.server2 => g.server2
  | ServPtr.server3 => g.server3

/-- The credential pair a login holds for a backend (`serv1`, `serv2`, `serv3`). -/
def loginserv.servcred (login : loginserv) : ServPtr → cred
  | ServPtr.server1 => login.serv1
  | ServPtr.server2 => login.serv2
  | ServPtr.server3 => login.serv3

/-- The `while (list != NULL)` loop of `check_allowed_server`. -/
def check_allowed_server_loop (user pass : CStr) : List cred → Int
  | [] => 0
  | cell :: next =>
    if strcmp cell.user user = 0 ∧ strcmp cell.password pass = 0 then 1
    else check_allowed_server_loop user pass next

def check_allowed_server (login : loginserv) (server : serv) : Int :=
  check_allowed_server_loop login.spatch.user login.spatch.password server.listuser

/-- One `if (check_allowed_server(...)) { write adresse; write "\r\n"; c++; }`
block of `show_allowed_servers`, acting on the counter and the trace. -/
def show_block (login : loginserv) (server : serv) (acc : Int × List Event) : Int × List Event :=
  if check_allowed_server login server ≠ 0 then
    (acc.1 + 1, acc.2 ++ [Event.puts Chan.client server.adresse, Event.write Chan.client false [13, 10] 2])
  else acc

/-- The function `show_allowed_servers`: the returned count and the writes. -/
def show_allowed_servers (g : Globals) (login : loginserv) : Int × List Event :=
  show_block login g.server3 (show_block login g.server2 (show_block login g.server1 (0, [])))

/-- The function `match_server`: the returned pointer with the values stored
through `user` and `password`, or `none` for `NULL`. -/
def match_server (g : Globals) (hostname : CStr) (login : loginserv) :
    Option (ServPtr × CStr × CStr) :=
  if strcmp g.server1.adresse hostname = 0 ∧ check_allowed_server login g.server1 ≠ 0 then
    some (ServPtr.server1, login.serv1.user, login.serv1.password)
  else if strcmp g.server2.adresse hostname = 0 ∧ check_allowed_server login g.server2 ≠ 0 then
    some (ServPtr.server2, login.serv2.user, login.serv2.password)
  else if strcmp g.server3.adresse hostname = 0 ∧ check_allowed_server login g.server3 ≠ 0 then
    some (ServPtr.server3, login.serv3.user, login.serv3.password)
  else none

/-- The `while (login != NULL)` loop of `match_login`. -/
def match_login_loop (user pass : CStr) : List loginserv → Option loginserv
  | [] => none
  | login :: next =>
    if strcmp user login.spatch.user = 0 ∧ strcmp pass login.spatch.password = 0 then some login
    else match_login_loop user pass next

def match_login (g : Globals) (user pass : CStr) : Option loginserv :=
  match_login_loop user pass g.logserv

/-- The lines of a menu trace.  `show_allowed_servers` writes every entry as
two calls, the address and then the line end; the lines are the first halves. -/
def menuLines : List Event → List CStr
  | Event.write _ _ bytes _ :: _ :: rest => bytes :: menuLines rest
  | _ => []

/-! ## Host verification: `verify_knownhost` -/

/-- The bytes of a string literal of the source. -/
def lit (s : String) : CStr :=
  s.toList.map (fun ch => (ch.toNat : Int))

/-- The values `ssh_is_server_known` can return. -/
inductive ssh_server_known where
  | SSH_SERVER_ERROR
  | SSH_SERVER_NOT_KNOWN
  | SSH_SERVER_KNOWN_OK
  | SSH_SERVER_KNOWN_CHANGED
  | SSH_SERVER_FOUND_OTHER
  | SSH_SERVER_FILE_NOT_FOUND
  deriving DecidableEq, Repr

/-- The result `ssh_channel_read_timeout` delivers: the returned count and the
bytes it put at the start of the buffer (none unless the count is positive). -/
structure ReadResult where
  count : Int
  data : List CChar
  deriving DecidableEq, Repr

/-- One pass of the relay loop as the environment presents it: what the two
`is_channel_closed_or_eof` tests at the loop head see, the contents of the
stack array `buffer` of `connect_channels` on entry, and the four reads in
program order. -/
structure Round where
  client_closed : Bool
  server_closed : Bool
  stack : List CChar
  read1 : ReadResult
  read2 : ReadResult
  read3 : ReadResult
  read4 : ReadResult
  deriving DecidableEq, Repr

/-- The behaviour of the backend side during one `connect_to_host`: the result
of every library call made on the upstream session. -/
structure Upstream where
  connect_ok : Bool
  userauth_ok : Bool
  known : ssh_server_known
  hlen : Int
  hexa : CStr
  write_knownhost : Int
  strerror : CStr
  get_error : CStr
  channel_new_ok : Bool
  open_session_ok : Bool
  request_pty_ok : Bool
  request_shell_ok : Bool
  rounds : List Round
  deriving DecidableEq, Repr

/-- The value returned by `verify_knownhost`, the calls it made and the client
input it left unread. -/
structure VerifyResult where
  ret : Int
  events : List Event
  input : List CChar
  deriving DecidableEq, Repr

def changed_msg (hexa : CStr) : CStr :=
  snprintf 1024 (lit "Host key for server changed: it is now: " ++ hexa ++
    lit "\r\nFor security reasons, connection will be stopped\r\n")

def found_other_msg : CStr :=
  snprintf 1024 (lit ("The host key for this server was not found but an other type of key exists.\r\n" ++
    "An attacker might change the default server key to " ++
    "confuse your client into thinking the key does not exist\r\n"))

def file_not_found_msg : CStr :=
  snprintf 1024 (lit ("Could not find known host file.\r\n" ++
    "If you accept the host key here, the file will be automatically created.\r\n"))

def not_known_msg (hexa : CStr) : CStr :=
  snprintf 1024 (lit "The server is unknown. Do you trust the host key?\r\nPublic key hash: " ++ hexa ++
    lit "\r\n")

/-- The body of `case SSH_SERVER_NOT_KNOWN:`, entered with the trace `pre`. -/
def verify_not_known (up : Upstream) (input : List CChar) (pre : List Event) : VerifyResult :=
  let ev1 := pre ++ [Event.puts_stderr Chan.client (not_known_msg up.hexa)]
  let line := channel_get_line 10 input
  let ev2 := ev1 ++ line.1.out
  if strncasecmp line.1.buffer [121, 101, 115, 0] 3 ≠ 0 then
    { ret := 0, events := ev2, input := line.2 }
  else
    let ev3 := ev2 ++ [Event.ssh_write_knownhost]
    if up.write_knownhost < 0 then
      { ret := 0,
        events := ev3 ++ [Event.puts_stderr Chan.client
          (snprintf 1024 (lit "Error " ++ up.strerror ++ lit "\r\n"))],
        input := line.2 }
    else
      { ret := 1, events := ev3, input := line.2 }

/-- The function `verify_knownhost(session, chan)`. -/
def verify_knownhost (up : Upstream) (input : List CChar) : VerifyResult :=
  if up.hlen < 0 then { ret := 0, events := [], input := input }
  else
    match up.known with
    | ssh_server_known.SSH_SERVER_KNOWN_OK => { ret := 1, events := [], input := input }
    | ssh_server_known.SSH_SERVER_KNOWN_CHANGED =>
      { ret := 0, events := [Event.puts_stderr Chan.client (changed_msg up.hexa)], input := input }
    | ssh_server_known.SSH_SERVER_FOUND_OTHER =>
      { ret := 0, events := [Event.puts_stderr Chan.client found_other_msg], input := input }
    | ssh_server_known.SSH_SERVER_FILE_NOT_FOUND =>
      verify_not_known up input [Event.puts_stderr Chan.client file_not_found_msg]
    | ssh_server_known.SSH_SERVER_NOT_KNOWN =>
      verify_not_known up input []
    | ssh_server_known.SSH_SERVER_ERROR =>
      { ret := 0,
        events := [Event.puts_stderr Chan.client (snprintf 1024 (lit "Error " ++ up.get_error))],
        input := input }

/-! ## Relay: `connect_channels` and the loop of `connect_to_host` -/

/-- Conversion of an `int` argument to the `uint32_t` length parameter. -/
def uint32 (n : Int) : Nat :=
  (n % 4294967296).toNat

/-- The array `buffer` after a read stored its bytes at the start. -/
def read_into (buffer : List CChar) (r : ReadResult) : List CChar :=
  r.data ++ buffer.drop r.data.length

/-- The call `ssh_channel_write[_stderr](dst, buffer, count)`. -/
def relay_write (dst : Chan) (is_stderr : Bool) (buffer : List CChar) (count : Int) : Event :=
  Event.write dst is_stderr (buffer.take (uint32 count)) (uint32 count)

/-- The function `connect_channels(chan1, chan2, timeout_ms)`: four reads, each
followed by the write of `count` bytes of `buffer` to the other side. -/
def connect_channels (chan1 chan2 : Chan) (r : Round) : List Event :=
  let b1 := read_into r.stack r.read1
  let b2 := read_into b1 r.read2
  let b3 := read_into b2 r.read3
  let b4 := read_into b3 r.read4
  [relay_write chan2 false b1 r.read1.count,
   relay_write chan2 true b2 r.read2.count,
   relay_write chan1 false b3 r.read3.count,
   relay_write chan1 true b4 r.read4.count]

/-- The `while` loop of `connect_to_host` over the passes the environment
presents; it ends at the first pass whose loop test sees a channel closed or
at end of stream (and with the last pass observed). -/
def relay_loop : List Round → List Event
  | [] => []
  | r :: rest =>
    if !r.client_closed && !r.server_closed then
      connect_channels Chan.client Chan.server r ++ relay_loop rest
    else []

/-! ## Backend connector: `connect_to_host` -/

/-- The `if ... else if ...` chain of `connect_to_host`: the value of
`error_msg`, the calls made and the unread client input. -/
def connect_chain (up : Upstream) (user password : CStr) (port : Int) (input : List CChar) :
    Option CStr × List Event × List CChar :=
  let ev0 := [Event.ssh_connect (lit "localhost") port]
  if !up.connect_ok then (some (lit "failed to connect to host\r\n"), ev0, input)
  else
    let ev1 := ev0 ++ [Event.ssh_userauth_password user password]
    if !up.userauth_ok then (some (lit "authentication failed\r\n"), ev1, input)
    else
      let v := verify_knownhost up input
      let ev2 := ev1 ++ v.events
      if v.ret = 0 then (some (lit "knownhost verification failed\r\n"), ev2, v.input)
      else
        let ev3 := ev2 ++ [Event.ssh_channel_new]
        if !up.channel_new_ok then (some (lit "failed to create channel\r\n"), ev3, v.input)
        else
          let ev4 := ev3 ++ [Event.ssh_channel_open_session]
          if !up.open_session_ok then (some (lit "failed to open remote shell session\r\n"), ev4, v.input)
          else
            let ev5 := ev4 ++ [Event.ssh_channel_request_pty]
            if !up.request_pty_ok then (some (lit "pty request failed\r\n"), ev5, v.input)
            else
              let ev6 := ev5 ++ [Event.ssh_channel_request_shell]
              if !up.request_shell_ok then (some (lit "failed to open remote shell\r\n"), ev6, v.input)
              else (none, ev6, v.input)

/-- The function `connect_to_host`: the calls it makes and the unread client input. -/
def connect_to_host (up : Upstream) (user password : CStr) (port : Int) (input : List CChar) :
    List Event × List CChar :=
  let c := connect_chain up user password port input
  match c.1 with
  | some error_msg => (c.2.1 ++ [Event.puts Chan.client error_msg], c.2.2)
  | none =>
    (c.2.1 ++ [Event.ssh_channel_change_pty_size 116 64] ++ relay_loop up.rounds, c.2.2)

/-! ## Backend selector: `select_host` -/

/-- The test `is_channel_closed_or_eof(chan)` on the client channel: the client
input is a finite stream, and the channel is at end of stream once nothing of
it is left unread. -/
def is_channel_closed_or_eof (input : List CChar) : Bool :=
  input.isEmpty

/-- The `do ... while` loop of `select_host`, one pass per unit of fuel,
entered with the unread client input and the trace so far; `none` when the
fuel runs out. -/
def select_host_loop (g : Globals) (up : Upstream) (login : loginserv) :
    Nat → List CChar → List Event → Option (List Event)
  | 0, _, _ => none
  | fuel + 1, input, ev =>
    let ev1 := ev ++ [Event.puts Chan.client (lit "select an endpoint\r\n")]
    let shown := show_allowed_servers g login
    let ev2 := ev1 ++ shown.2
    if shown.1 = 0 then
      some (ev2 ++ [Event.puts Chan.client (lit "no valid endpoint\r\n")])
    else
      let ev3 := ev2 ++ [Event.puts Chan.client (lit "exit\r\n")]
      let line := channel_get_line 1024 input
      let ev4 := ev3 ++ line.1.out
      let buffer := cstr line.1.buffer
      match match_server g buffer login with
      | some (server, svr_usr, svr_pass) =>
        some (ev4 ++ (connect_to_host up svr_usr svr_pass (g.deref server).port line.2).1)
      | none =>
        if strcmp buffer (lit "exit") ≠ 0 ∧ !is_channel_closed_or_eof line.2 then
          select_host_loop g up login fuel line.2 ev4
        else some ev4

/-- The function `select_host(chan, user, login)` for a non-null `login`: the
calls it makes.  Every pass but the last leaves unread input and reads at
least one byte, so `input.length + 1` passes are enough. -/
def select_host (g : Globals) (up : Upstream) (login : loginserv) (input : List CChar) :
    Option (List Event) :=
  select_host_loop g up login (input.length + 1) input
    [Event.puts Chan.client (lit "welcome to spatch\r\n")]

/-! ## Session authenticator: `handle_session` -/

inductive ssh_requests where
  | SSH_REQUEST_AUTH
  | SSH_REQUEST_CHANNEL_OPEN
  | SSH_REQUEST_CHANNEL
  | SSH_REQUEST_SERVICE
  | SSH_REQUEST_GLOBAL
  deriving DecidableEq, Repr

/-- The subtypes the source tests for; every other value is `other`. -/
inductive msg_subtype where
  | SSH_AUTH_METHOD_PASSWORD
  | SSH_CHANNEL_SESSION
  | SSH_CHANNEL_REQUEST_SHELL
  | SSH_CHANNEL_REQUEST_PTY
  | other
  deriving DecidableEq, Repr

/-- A message returned by `ssh_message_get`: its type and subtype, the
credentials it carries when it is an authentication request, and whether
`ssh_message_channel_request_open_reply_accept` yields a channel for it. -/
structure ssh_message where
  msg_type : ssh_requests
  subtype : msg_subtype
  auth_user : CStr
  auth_password : CStr
  accept_ok : Bool
  deriving DecidableEq, Repr

def is_pass_auth_msg (message : ssh_message) : Bool :=
  message.msg_type = ssh_requests.SSH_REQUEST_AUTH
    && message.subtype = msg_subtype.SSH_AUTH_METHOD_PASSWORD

def is_chan_open_msg (message : ssh_message) : Bool :=
  message.msg_type = ssh_requests.SSH_REQUEST_CHANNEL_OPEN
    && message.subtype = msg_subtype.SSH_CHANNEL_SESSION

def is_shell_request_msg (message : ssh_message) : Bool :=
  message.msg_type = ssh_requests.SSH_REQUEST_CHANNEL
    && (message.subtype = msg_subtype.SSH_CHANNEL_REQUEST_SHELL
      || message.subtype = msg_subtype.SSH_CHANNEL_REQUEST_PTY)

/-- The locals of `handle_session` that the setup loop updates (`chan` is
whether the pointer is non-null, `login` is `none` for `NULL`). -/
structure SetupState where
  auth : Bool
  chan : Bool
  shell : Bool
  limit : Int
  login : Option loginserv
  user : CStr
  events : List Event
  deriving DecidableEq, Repr

/-- The `do ... while (!auth || !chan || !shell)` loop of `handle_session` over
the messages the peer sends.  When they are used up `ssh_message_get` has only
`NULL` to return, which changes no local, and the loop does not end: `none`. -/
def setup_loop (g : Globals) : List ssh_message → SetupState → Option SetupState
  | [], _ => none
  | message :: rest, st =>
    if is_pass_auth_msg message then
      let user := strncpy 64 message.auth_user
      let login := match_login g user message.auth_password
      let limit := if login.isNone then st.limit - 1 else st.limit
      if login.isNone ∧ limit ≤ 0 then
        some { st with user := user, login := login, limit := limit }
      else
        let st1 := { st with user := user, login := login, limit := limit, auth := true,
                             events := st.events ++ [Event.auth_reply_success] }
        if !st1.auth || !st1.chan || !st1.shell then setup_loop g rest st1 else some st1
    else if is_chan_open_msg message then
      let st1 := { st with chan := message.accept_ok,
                           events := st.events ++ [Event.channel_open_reply_accept] }
      if !st1.auth || !st1.chan || !st1.shell then setup_loop g rest st1 else some st1
    else if is_shell_request_msg message then
      let st1 := { st with shell := true,
                           events := st.events ++ [Event.channel_request_reply_success] }
      if !st1.auth || !st1.chan || !st1.shell then setup_loop g rest st1 else some st1
    else
      let st1 := { st with events := st.events ++ [Event.reply_default] }
      if !st1.auth || !st1.chan || !st1.shell then setup_loop g rest st1 else some st1

/-- How `handle_session` ends. -/
inductive Outcome where
  | key_exchange_failed
  | authentication_failed
  | failed_to_open_channel
  | channel_type_not_supported
  | select_host_null_login
  | select_host_done
  deriving DecidableEq, Repr

/-- The end of a session: how it ended, the locals of the setup loop at its
exit and the whole trace. -/
structure SessionResult where
  outcome : Outcome
  setup : SetupState
  events : List Event
  deriving DecidableEq, Repr

/-- The locals of `handle_session` before the setup loop. -/
def setup_init : SetupState :=
  { auth := false, chan := false, shell := false, limit := 3, login := none, user := [],
    events := [] }

/-- The function `handle_session(session)`.  `kex_ok` is whether
`ssh_handle_key_exchange` returned `SSH_OK`; `none` when the function does not
return.  With a null `login` the call `select_host(chan, user, login)` is still
made; it writes its two banner lines and then dereferences the pointer in
`check_allowed_server`. -/
def handle_session (g : Globals) (up : Upstream) (kex_ok : Bool) (messages : List ssh_message)
    (input : List CChar) : Option SessionResult :=
  if !kex_ok then
    some { outcome := Outcome.key_exchange_failed, setup := setup_init, events := [] }
  else
    match setup_loop g messages setup_init with
    | none => none
    | some st =>
      if !st.auth then
        some { outcome := Outcome.authentication_failed, setup := st, events := st.events }
      else if !st.chan then
        some { outcome := Outcome.failed_to_open_channel, setup := st, events := st.events }
      else if !st.shell then
        some { outcome := Outcome.channel_type_not_supported, setup := st, events := st.events }
      else
        match st.login with
        | none =>
          some { outcome := Outcome.select_host_null_login, setup := st,
                 events := st.events ++ [Event.puts Chan.client (lit "welcome to spatch\r\n"),
                                         Event.puts Chan.client (lit "select an endpoint\r\n")] }
        | some login =>
          match select_host g up login input with
          | none => none
          | some ev =>
            some { outcome := Outcome.select_host_done, setup := st, events := st.events ++ ev }

/-! ## Sample data -/

def alice : loginserv :=
  { spatch := { user := lit "alice", password := lit "pw" },
    serv1 := { user := lit "a1", password := lit "p1" },
    serv2 := { user := lit "a2", password := lit "p2" },
    serv3 := { user := lit "a3", password := lit "p3" } }

/-- A directory with one gateway user, on the ACL of the first two backends,
which carry the same display address. -/
def twins : Globals :=
  { server1 := { adresse := lit "db", port := 22, listuser := [alice.spatch] },
    server2 := { adresse := lit "db", port := 2222, listuser := [alice.spatch] },
    server3 := { adresse := lit "web", port := 22, listuser := [] },
    logserv := [alice] }

/-- A directory with one gateway user and three distinct display addresses. -/
def sample : Globals :=
  { server1 := { adresse := lit "db", port := 22, listuser := [alice.spatch] },
    server2 := { adresse := lit "app", port := 2222, listuser := [alice.spatch] },
    server3 := { adresse := lit "web", port := 22, listuser := [] },
    logserv := [alice] }

/-- An upstream on which every call succeeds and whose host key is not yet known. -/
def fresh_host : Upstream :=
  { connect_ok := true, userauth_ok := true,
    known := ssh_server_known.SSH_SERVER_NOT_KNOWN, hlen := 16, hexa := lit "ab:cd",
    write_knownhost := 0, strerror := [], get_error := [],
    channel_new_ok := true, open_session_ok := true, request_pty_ok := true,
    request_shell_ok := true, rounds := [] }

def pass_msg (user pass : String) : ssh_message :=
  { msg_type := ssh_requests.SSH_REQUEST_AUTH, subtype := msg_subtype.SSH_AUTH_METHOD_PASSWORD,
    auth_user := lit user, auth_password := lit pass, accept_ok := false }

def chan_open_msg : ssh_message :=
  { msg_type := ssh_requests.SSH_REQUEST_CHANNEL_OPEN, subtype := msg_subtype.SSH_CHANNEL_SESSION,
    auth_user := [], auth_password := [], accept_ok := true }

def shell_msg : ssh_message :=
  { msg_type := ssh_requests.SSH_REQUEST_CHANNEL, subtype := msg_subtype.SSH_CHANNEL_REQUEST_SHELL,
    auth_user := [], auth_password := [], accept_ok := false }

/-- A pass of the relay loop whose first read (client, primary stream) fails
with `SSH_ERROR`, the other three timing out with no data. -/
def failing_round (stack : List CChar) : Round :=
  { client_closed := false, server_closed := false, stack := stack,
    read1 := { count := -1, data := [] },
    read2 := { count := 0, data := [] },
    read3 := { count := 0, data := [] },
    read4 := { count := 0, data := [] } }

/-- An upstream whose host key differs from the recorded one and whose
fingerprint could not be computed. -/
def changed_no_hash : Upstream :=
  { fresh_host with known := ssh_server_known.SSH_SERVER_KNOWN_CHANGED, hlen := -1 }

/-- An upstream whose host key differs from the recorded one. -/
def changed_host : Upstream :=
  { fresh_host with known := ssh_server_known.SSH_SERVER_KNOWN_CHANGED }

/-- The invariant of the loop of `channel_get_line` for a buffer of `bufflen`
bytes: the array keeps its length, the cursor and every index stored to are at
most `bufflen - 2`, and the last byte is NUL. -/
def LineInv (bufflen : Nat) (st : LineState) : Prop :=
  st.buffer.length = bufflen ∧ st.pos ≤ bufflen - 2 ∧
    (∀ i ∈ st.stores, i ≤ bufflen - 2) ∧ st.buffer[bufflen - 1]? = some 0

/-- Whether a call touches the backend side: any call on the upstream session
or its channel, and any write to the backend channel. -/
def contacts_backend : Event → Bool
  | Event.write Chan.server _ _ _ => true
  | Event.ssh_connect _ _ => true
  | Event.ssh_userauth_password _ _ => true
  | Event.ssh_write_knownhost => true
  | Event.ssh_channel_new => true
  | Event.ssh_channel_open_session => true
  | Event.ssh_channel_request_pty => true
  | Event.ssh_channel_request_shell => true
  | Event.ssh_channel_change_pty_size _ _ => true
  | _ => false

/-- Whether a call creates or uses the backend channel: its creation, the
session, pty and shell requests, the terminal size, and the relay's writes to it. -/
def backend_channel_call : Event → Bool
  | Event.write Chan.server _ _ _ => true
  | Event.ssh_channel_new => true
  | Event.ssh_channel_open_session => true
  | Event.ssh_channel_request_pty => true
  | Event.ssh_channel_request_shell => true
  | Event.ssh_channel_change_pty_size _ _ => true
  | _ => false

/-! ## Theorems -/

/-- C1: a password message that misses the directory still authenticates the
session.  With the one-user directory `sample`, the messages (password of an
unknown user, channel open, shell request) leave `auth` set, are answered with
an authentication-success reply, and `select_host` is entered with a null login. -/
theorem handle_session_miss_authenticates :
    match_login sample (lit "eve") (lit "x") = none ∧
    (handle_session sample fresh_host true [pass_msg "eve" "x", chan_open_msg, shell_msg] []).map
        (fun r => (r.outcome, r.setup.auth, r.setup.login, r.setup.limit, r.setup.events))
      = some (Outcome.select_host_null_login, true, none, 2,
          [Event.auth_reply_success, Event.channel_open_reply_accept,
           Event.channel_request_reply_success]) := by
  decide

/-- C2: after three password messages that all miss the directory the session
ends, whatever follows, but not as an authentication failure: the first two
misses were answered with success and set `auth`, so the function reports the
missing channel. -/
theorem handle_session_three_misses (rest : List ssh_message) (input : List CChar) :
    match_login sample (lit "eve") (lit "x") = none ∧
    match_login sample (lit "eve") (lit "y") = none ∧
    match_login sample (lit "eve") (lit "z") = none ∧
    (handle_session sample fresh_host true
        (pass_msg "eve" "x" :: pass_msg "eve" "y" :: pass_msg "eve" "z" :: rest) input).map
        (fun r => (r.outcome, r.setup.auth, r.setup.chan, r.setup.limit, r.events))
      = some (Outcome.failed_to_open_channel, true, false, 0,
          [Event.auth_reply_success, Event.auth_reply_success]) := by
  refine ⟨by decide, by decide, by decide, ?_⟩
  rfl

/-- C7: the input `a`, `b`, delete, `c`, carriage return does not yield `ac`.
The delete byte is itself stored at the cursor before it is handled, and the
next printable byte overwrites the NUL in front of it: the line is `ac` followed
by the byte 127, in the 10-byte and in the 1024-byte buffer. -/
theorem get_line_keeps_delete_byte :
    get_line 10 [97, 98, 127, 99, 13] = [97, 99, 127] ∧
    get_line 1024 [97, 98, 127, 99, 13] = [97, 99, 127] ∧
    get_line 10 [127, 13] = [127] := by
  decide

/-- C9: a control byte is not stored but still advances the cursor, leaving a
NUL in the line: `a`, 0x09, `b`, carriage return yields `a`, and a 0x0A in front
of `yes` yields the empty line, while the same inputs without the control bytes
yield `ab` and `yes`. -/
theorem get_line_control_byte_cuts_line :
    get_line 10 [97, 9, 98, 13] = [97] ∧
    get_line 10 [97, 98, 13] = [97, 98] ∧
    get_line 10 [10, 121, 101, 115, 13] = [] ∧
    get_line 10 [121, 101, 115, 13] = [121, 101, 115] := by
  decide

/-- A read that returns its own byte count, as data reads (count positive) and
timeouts (count 0) do, is followed by a write of exactly the bytes read. -/
theorem relay_write_exact (dst : Chan) (is_stderr : Bool) (buffer : List CChar) (r : ReadResult)
    (hcount : r.count = (r.data.length : Int)) (hfit : r.data.length < 4294967296) :
    relay_write dst is_stderr (read_into buffer r) r.count
      = Event.write dst is_stderr r.data r.data.length := by
  have hu : uint32 r.count = r.data.length := by
    unfold uint32
    rw [hcount]
    omega
  simp only [relay_write, hu, read_into, List.take_left]

/-- The relay loop makes no call once a loop test sees a channel closed or at
end of stream. -/
theorem relay_loop_stops (r : Round) (rest : List Round)
    (h : r.client_closed = true ∨ r.server_closed = true) : relay_loop (r :: rest) = [] := by
  rcases h with h | h <;> simp [relay_loop, h]

/-- C8: when the first read of a pass fails (count -1 and no data), the write
that follows is not given the empty read result: its length argument is
4294967295 and its source the stack array with whatever it held on entry. -/
theorem connect_channels_read_failure (stack : List CChar) :
    (failing_round stack).read1.data = [] ∧
    (connect_channels Chan.client Chan.server (failing_round stack)).head?
      = some (Event.write Chan.server false (stack.take 4294967295) 4294967295) ∧
    (relay_loop [failing_round stack]).head?
      = some (Event.write Chan.server false (stack.take 4294967295) 4294967295) := by
  refine ⟨rfl, ?_, ?_⟩
  · simp [connect_channels, failing_round, relay_write, read_into, uint32]
  · simp [relay_loop, connect_channels, failing_round, relay_write, read_into, uint32]

/-! ### Line editor bounds -/

theorem LineInv.store {bufflen : Nat} {st : LineState} (h : LineInv bufflen st)
    (hb : 2 ≤ bufflen) (i : Nat) (c : CChar) (hi : i ≤ bufflen - 2) :
    LineInv bufflen (st.store i c) := by
  obtain ⟨hlen, hpos, hst, hlast⟩ := h
  refine ⟨by simp [LineState.store, hlen], hpos, ?_, ?_⟩
  · intro j hj
    simp only [LineState.store, List.mem_append, List.mem_singleton] at hj
    rcases hj with hj | hj
    · exact hst j hj
    · omega
  · have hne : i ≠ bufflen - 1 := by omega
    simp only [LineState.store]
    rw [List.getElem?_set_ne hne]
    exact hlast

theorem LineInv.write {bufflen : Nat} {st : LineState} (h : LineInv bufflen st)
    (bytes : List CChar) : LineInv bufflen (st.write bytes) := h

theorem LineInv.spaces {bufflen : Nat} (n : Nat) :
    ∀ {st : LineState}, LineInv bufflen st → LineInv bufflen (st.spaces n) := by
  induction n with
  | zero => intro st h; exact h
  | succ k ih => intro st h; exact ih (h.write [32])

theorem LineState.spaces_pos (n : Nat) : ∀ st : LineState, (st.spaces n).pos = st.pos := by
  induction n with
  | zero => intro st; rfl
  | succ k ih => intro st; exact (ih (st.write [32])).trans rfl

theorem channel_get_line_loop_inv (bufflen : Nat) (hb : 2 ≤ bufflen) :
    ∀ (input : List CChar) (st : LineState), LineInv bufflen st →
      LineInv bufflen (channel_get_line_loop bufflen input st).1 := by
  intro input
  induction input with
  | nil => intro st h; exact h
  | cons c rest ih =>
    intro st h
    have h1 : LineInv bufflen (if c > 31 then st.store st.pos c else st) := by
      split
      · exact h.store hb _ _ h.2.1
      · exact h
    simp only [channel_get_line_loop]
    generalize (if c > 31 then st.store st.pos c else st) = s1 at h1 ⊢
    have h2 := h1.write [c]
    by_cases h127 : c = 127
    · rw [if_pos h127]
      apply ih
      apply LineInv.write
      apply LineInv.write
      have h4 := LineInv.spaces ((s1.write [c]).write [13]).pos (h2.write [13])
      generalize ((s1.write [c]).write [13]).spaces ((s1.write [c]).write [13]).pos = s4 at h4 ⊢
      have hle := h4.2.1
      by_cases hp : s4.pos > 0
      · rw [if_pos hp]
        have h5 := h4.store hb (s4.pos - 1) 0 (by omega)
        refine ⟨h5.1, ?_, h5.2.2.1, h5.2.2.2⟩
        show s4.pos - 1 ≤ bufflen - 2
        omega
      · rw [if_neg hp]
        exact h4
    · rw [if_neg h127]
      by_cases h13 : c = 13
      · rw [if_pos h13]
        exact h2.write [13, 10]
      · rw [if_neg h13]
        by_cases hlt : ((s1.write [c]).pos : Int) < (bufflen : Int) - 2
        · rw [if_pos hlt]
          apply ih
          refine ⟨h2.1, ?_, h2.2.2.1, h2.2.2.2⟩
          show (s1.write [c]).pos + 1 ≤ bufflen - 2
          omega
        · rw [if_neg hlt]
          exact ih _ h2

/-- Bytes read before any carriage return take the loop from its state to the
state it has when they are the whole input: the states inside a run are the
final states of the inputs cut there. -/
theorem channel_get_line_loop_append (bufflen : Nat) :
    ∀ (pre post : List CChar) (st : LineState), (13 : CChar) ∉ pre →
      channel_get_line_loop bufflen (pre ++ post) st
        = channel_get_line_loop bufflen post (channel_get_line_loop bufflen pre st).1 := by
  intro pre
  induction pre with
  | nil => intro post st _; rfl
  | cons c rest ih =>
    intro post st h
    have hc : ¬ c = 13 := fun h0 => h (by rw [h0]; exact List.mem_cons_self _ _)
    have hr : (13 : CChar) ∉ rest := fun h0 => h (List.mem_cons_of_mem _ h0)
    simp only [List.cons_append, channel_get_line_loop]
    generalize (if c > 31 then st.store st.pos c else st) = s1
    by_cases h127 : c = 127
    · simp only [if_pos h127]
      exact ih _ _ hr
    · simp only [if_neg h127, if_neg hc]
      by_cases hlt : ((s1.write [c]).pos : Int) < (bufflen : Int) - 2
      · simp only [if_pos hlt]
        exact ih _ _ hr
      · simp only [if_neg hlt]
        exact ih _ _ hr

theorem cstr_length_le (buffer : List CChar) (k : Nat) (h : buffer[k]? = some 0) :
    (cstr buffer).length ≤ k := by
  induction buffer generalizing k with
  | nil => simp at h
  | cons a as ih =>
    unfold cstr
    rw [List.takeWhile_cons]
    split
    · rename_i ha
      cases k with
      | zero => simp at h; simp [h] at ha
      | succ k =>
        simp only [List.getElem?_cons_succ] at h
        have := ih k h
        simp only [cstr] at this
        simp only [List.length_cons]
        omega
    · simp

/-- C10: for a buffer of at least two bytes and any input, `channel_get_line`
ends with the cursor at most `bufflen - 2`, has stored only at indices at most
`bufflen - 2`, leaves the array at its length with `buffer[bufflen - 1]` equal
to 0, and the line found in it is shorter than the array.  A state reached
inside the loop after some bytes is the final state for those bytes as input
(`channel_get_line_loop_append`), so the bounds hold throughout a run. -/
theorem channel_get_line_bounds (bufflen : Nat) (hb : 2 ≤ bufflen) (input : List CChar) :
    (channel_get_line bufflen input).1.pos ≤ bufflen - 2 ∧
    (∀ i ∈ (channel_get_line bufflen input).1.stores, i ≤ bufflen - 2) ∧
    (channel_get_line bufflen input).1.buffer.length = bufflen ∧
    (channel_get_line bufflen input).1.buffer[bufflen - 1]? = some 0 ∧
    (get_line bufflen input).length ≤ bufflen - 1 := by
  have h0 : LineInv bufflen
      { buffer := List.replicate bufflen 0, pos := 0, out := [], stores := [] } := by
    refine ⟨by simp, Nat.zero_le _, by simp, ?_⟩
    show (List.replicate bufflen (0 : CChar))[bufflen - 1]? = some 0
    rw [List.getElem?_replicate]
    have : bufflen - 1 < bufflen := by omega
    simp [this]
  have h := channel_get_line_loop_inv bufflen hb input _ h0
  exact ⟨h.2.1, h.2.2.1, h.1, h.2.2.2, cstr_length_le _ _ h.2.2.2⟩

/-- C10 on the trust prompt: a 10-byte buffer fed twelve printable bytes. -/
theorem channel_get_line_bounds_witness :
    2 ≤ 10 ∧
    (channel_get_line 10 (List.replicate 12 120)).1.pos ≤ 10 - 2 ∧
    (∀ i ∈ (channel_get_line 10 (List.replicate 12 120)).1.stores, i ≤ 10 - 2) ∧
    (channel_get_line 10 (List.replicate 12 120)).1.buffer.length = 10 ∧
    (channel_get_line 10 (List.replicate 12 120)).1.buffer[10 - 1]? = some 0 ∧
    (get_line 10 (List.replicate 12 120)).length ≤ 10 - 1 :=
  ⟨by decide, channel_get_line_bounds 10 (by decide) (List.replicate 12 120)⟩

/-! ### Directory lookups -/

theorem strcmp_eq_zero (a b : CStr) : strcmp a b = 0 ↔ a = b := by
  induction a generalizing b with
  | nil => cases b <;> simp [strcmp]
  | cons x xs ih =>
    cases b with
    | nil => simp [strcmp]
    | cons y ys =>
      simp only [strcmp]
      by_cases hxy : x = y
      · simp [hxy, ih]
      · simp only [hxy, if_false, List.cons.injEq, false_and, iff_false]
        split <;> decide

theorem check_allowed_server_loop_bool (user pass : CStr) (l : List cred) :
    check_allowed_server_loop user pass l = 0 ∨ check_allowed_server_loop user pass l = 1 := by
  induction l with
  | nil => exact Or.inl rfl
  | cons cell next ih =>
    simp only [check_allowed_server_loop]
    split
    · exact Or.inr rfl
    · exact ih

theorem check_allowed_server_bool (login : loginserv) (server : serv) :
    check_allowed_server login server = 0 ∨ check_allowed_server login server = 1 :=
  check_allowed_server_loop_bool _ _ _

/-- C3 as stated fails when two backends carry the same display address: in
`twins` the login is on the ACL of `server2`, yet the address of `server2` is on
the menu twice and `match_server` resolves it to `server1` with the `serv1`
credentials. -/
theorem shared_address_resolves_first_backend :
    check_allowed_server alice (twins.deref ServPtr.server2) = 1 ∧
    (menuLines (show_allowed_servers twins alice).2).count (twins.deref ServPtr.server2).adresse = 2 ∧
    match_server twins (twins.deref ServPtr.server2).adresse alice
      = some (ServPtr.server1, alice.serv1.user, alice.serv1.password) ∧
    match_server twins (twins.deref ServPtr.server2).adresse alice
      ≠ some (ServPtr.server2, alice.serv2.user, alice.serv2.password) := by
  decide

/-- C3, amended: for a login on the ACL of a backend whose display address is
not shared by another backend that also lists the login, the menu carries that
address exactly once and `match_server` on that address returns this backend
with the login's own credential pair for it. -/
theorem granted_backend_on_menu_once (g : Globals) (login : loginserv) (p : ServPtr)
    (hallowed : check_allowed_server login (g.deref p) = 1)
    (huniq : ∀ q, q ≠ p → check_allowed_server login (g.deref q) = 1 →
      (g.deref q).adresse ≠ (g.deref p).adresse) :
    (menuLines (show_allowed_servers g login).2).count (g.deref p).adresse = 1 ∧
    match_server g (g.deref p).adresse login
      = some (p, (login.servcred p).user, (login.servcred p).password) := by
  have e1 := check_allowed_server_bool login g.server1
  have e2 := check_allowed_server_bool login g.server2
  have e3 := check_allowed_server_bool login g.server3
  cases p
  · have h2 := huniq ServPtr.server2 (by decide)
    have h3 := huniq ServPtr.server3 (by decide)
    simp only [Globals.deref, loginserv.servcred] at *
    constructor
    · rcases e2 with e2 | e2 <;> rcases e3 with e3 | e3 <;>
        simp [show_allowed_servers, show_block, hallowed, e2, e3, menuLines, Event.puts,
          List.count_cons, h2, h3]
    · simp [match_server, strcmp_eq_zero, hallowed]
  · have h1 := huniq ServPtr.server1 (by decide)
    have h3 := huniq ServPtr.server3 (by decide)
    simp only [Globals.deref, loginserv.servcred] at *
    constructor
    · rcases e1 with e1 | e1 <;> rcases e3 with e3 | e3 <;>
        simp [show_allowed_servers, show_block, hallowed, e1, e3, menuLines, Event.puts,
          List.count_cons, h1, h3]
    · rcases e1 with e1 | e1 <;>
        simp [match_server, strcmp_eq_zero, hallowed, e1, h1]
  · have h1 := huniq ServPtr.server1 (by decide)
    have h2 := huniq ServPtr.server2 (by decide)
    simp only [Globals.deref, loginserv.servcred] at *
    constructor
    · rcases e1 with e1 | e1 <;> rcases e2 with e2 | e2 <;>
        simp [show_allowed_servers, show_block, hallowed, e1, e2, menuLines, Event.puts,
          List.count_cons, h1, h2]
    · rcases e1 with e1 | e1 <;> rcases e2 with e2 | e2 <;>
        simp [match_server, strcmp_eq_zero, hallowed, e1, e2, h1, h2]

/-- C3 amended, at the directory `sample` and its first backend. -/
theorem granted_backend_on_menu_once_witness :
    check_allowed_server alice (sample.deref ServPtr.server1) = 1 ∧
    (menuLines (show_allowed_servers sample alice).2).count (sample.deref ServPtr.server1).adresse = 1 ∧
    match_server sample (sample.deref ServPtr.server1).adresse alice
      = some (ServPtr.server1, (alice.servcred ServPtr.server1).user,
          (alice.servcred ServPtr.server1).password) :=
  ⟨by decide,
    granted_backend_on_menu_once sample alice ServPtr.server1 (by decide)
      (fun q => by cases q <;> decide)⟩

/-! ### Selection and access control -/

theorem spaces_out (n : Nat) : ∀ st : LineState,
    (∀ e ∈ st.out, contacts_backend e = false) →
    ∀ e ∈ (st.spaces n).out, contacts_backend e = false := by
  induction n with
  | zero => intro st h; exact h
  | succ k ih =>
    intro st h
    apply ih (st.write [32])
    intro e he
    simp only [LineState.write, List.mem_append, List.mem_singleton] at he
    rcases he with he | he
    · exact h e he
    · subst he; rfl

theorem write_out (st : LineState) (bytes : List CChar)
    (h : ∀ e ∈ st.out, contacts_backend e = false) :
    ∀ e ∈ (st.write bytes).out, contacts_backend e = false := by
  intro e he
  simp only [LineState.write, List.mem_append, List.mem_singleton] at he
  rcases he with he | he
  · exact h e he
  · subst he; rfl

theorem channel_get_line_loop_out (bufflen : Nat) :
    ∀ (input : List CChar) (st : LineState),
      (∀ e ∈ st.out, contacts_backend e = false) →
      ∀ e ∈ (channel_get_line_loop bufflen input st).1.out, contacts_backend e = false := by
  intro input
  induction input with
  | nil => intro st h; exact h
  | cons c rest ih =>
    intro st h
    have h1 : ∀ e ∈ (if c > 31 then st.store st.pos c else st).out, contacts_backend e = false := by
      split
      · exact h
      · exact h
    simp only [channel_get_line_loop]
    generalize (if c > 31 then st.store st.pos c else st) = s1 at h1 ⊢
    have h2 := write_out s1 [c] h1
    by_cases h127 : c = 127
    · rw [if_pos h127]
      apply ih
      apply write_out
      apply write_out
      have h4 := spaces_out ((s1.write [c]).write [13]).pos _ (write_out _ [13] h2)
      generalize ((s1.write [c]).write [13]).spaces ((s1.write [c]).write [13]).pos = s4 at h4 ⊢
      by_cases hp : s4.pos > 0
      · rw [if_pos hp]; exact h4
      · rw [if_neg hp]; exact h4
    · rw [if_neg h127]
      by_cases h13 : c = 13
      · rw [if_pos h13]
        exact write_out _ _ h2
      · rw [if_neg h13]
        by_cases hlt : ((s1.write [c]).pos : Int) < (bufflen : Int) - 2
        · rw [if_pos hlt]; exact ih _ h2
        · rw [if_neg hlt]; exact ih _ h2

theorem channel_get_line_loop_unread (bufflen : Nat) :
    ∀ (input : List CChar) (st : LineState),
      (channel_get_line_loop bufflen input st).2 <:+ input ∧
      (input ≠ [] → (channel_get_line_loop bufflen input st).2.length < input.length) := by
  intro input
  induction input with
  | nil => intro st; exact ⟨List.suffix_refl _, fun h => absurd rfl h⟩
  | cons c rest ih =>
    intro st
    have key : ∀ s : LineState, (channel_get_line_loop bufflen rest s).2 <:+ c :: rest ∧
        (channel_get_line_loop bufflen rest s).2.length < (c :: rest).length := by
      intro s
      have hs := (ih s).1
      refine ⟨hs.trans (List.suffix_cons c rest), ?_⟩
      have := hs.length_le
      simp only [List.length_cons]
      omega
    suffices hmain : (channel_get_line_loop bufflen (c :: rest) st).2 <:+ c :: rest ∧
        (channel_get_line_loop bufflen (c :: rest) st).2.length < (c :: rest).length from
      ⟨hmain.1, fun _ => hmain.2⟩
    simp only [channel_get_line_loop]
    by_cases h127 : c = 127
    · rw [if_pos h127]; exact key _
    · rw [if_neg h127]
      by_cases h13 : c = 13
      · rw [if_pos h13]
        exact ⟨List.suffix_cons c rest, by simp⟩
      · rw [if_neg h13]
        generalize (if c > 31 then st.store st.pos c else st) = s1
        by_cases hlt : ((s1.write [c]).pos : Int) < (bufflen : Int) - 2
        · rw [if_pos hlt]; exact key _
        · rw [if_neg hlt]; exact key _

theorem show_allowed_servers_out (g : Globals) (login : loginserv) :
    ∀ e ∈ (show_allowed_servers g login).2, contacts_backend e = false := by
  intro e he
  simp only [show_allowed_servers, show_block] at he
  split at he <;> split at he <;> split at he <;>
    simp only [List.nil_append, List.append_assoc, List.cons_append, List.mem_cons,
      List.mem_nil_iff, or_false, List.not_mem_nil] at he
  all_goals
    first
    | exact absurd he id
    | (rcases he with he | he | he | he | he | he <;> subst he <;> rfl)
    | (rcases he with he | he | he | he <;> subst he <;> rfl)
    | (rcases he with he | he <;> subst he <;> rfl)

theorem quiet_append {l1 l2 : List Event} (h1 : ∀ e ∈ l1, contacts_backend e = false)
    (h2 : ∀ e ∈ l2, contacts_backend e = false) :
    ∀ e ∈ l1 ++ l2, contacts_backend e = false := by
  intro e he
  rcases List.mem_append.mp he with he | he
  · exact h1 e he
  · exact h2 e he

theorem quiet_puts (s : CStr) : ∀ e ∈ [Event.puts Chan.client s], contacts_backend e = false := by
  intro e he
  rw [List.mem_singleton] at he
  subst he
  rfl

theorem channel_get_line_out (bufflen : Nat) (input : List CChar) :
    ∀ e ∈ (channel_get_line bufflen input).1.out, contacts_backend e = false :=
  channel_get_line_loop_out bufflen input _ (fun _ he => absurd he (List.not_mem_nil _))

theorem select_host_loop_contacts (g : Globals) (up : Upstream) (login : loginserv) :
    ∀ (fuel : Nat) (input : List CChar) (ev0 ev : List Event),
      (∀ e ∈ ev0, contacts_backend e = false) →
      select_host_loop g up login fuel input ev0 = some ev →
      ∀ e ∈ ev, contacts_backend e = true →
        ∃ unread p u pw, unread <:+ input ∧
          match_server g (get_line 1024 unread) login = some (p, u, pw) ∧
          e ∈ (connect_to_host up u pw (g.deref p).port (channel_get_line 1024 unread).2).1 := by
  intro fuel
  induction fuel with
  | zero => intro input ev0 ev _ h; simp [select_host_loop] at h
  | succ n ih =>
    intro input ev0 ev hq h e he hc
    have q2 := quiet_append (quiet_append hq (quiet_puts (lit "select an endpoint\r\n")))
      (show_allowed_servers_out g login)
    have q4 := quiet_append (quiet_append q2 (quiet_puts (lit "exit\r\n")))
      (channel_get_line_out 1024 input)
    simp only [select_host_loop] at h
    by_cases hs : (show_allowed_servers g login).1 = 0
    · rw [if_pos hs] at h
      have hev := Option.some.inj h
      subst hev
      have := quiet_append q2 (quiet_puts (lit "no valid endpoint\r\n")) e he
      rw [this] at hc
      exact absurd hc (by decide)
    · rw [if_neg hs] at h
      cases hm : match_server g (cstr (channel_get_line 1024 input).1.buffer) login with
      | some r =>
        obtain ⟨p, u, pw⟩ := r
        simp only [hm] at h
        have hev := Option.some.inj h
        subst hev
        refine ⟨input, p, u, pw, List.suffix_refl _, hm, ?_⟩
        rcases List.mem_append.mp he with he | he
        · have := q4 e he
          rw [this] at hc
          exact absurd hc (by decide)
        · exact he
      | none =>
        simp only [hm] at h
        split at h
        · obtain ⟨unread, p, u, pw, hsuf, hmatch⟩ := ih _ _ _ q4 h e he hc
          exact ⟨unread, p, u, pw,
            hsuf.trans (channel_get_line_loop_unread 1024 input _).1, hmatch⟩
        · have hev := Option.some.inj h
          subst hev
          have := q4 e he
          rw [this] at hc
          exact absurd hc (by decide)

theorem select_host_loop_returns (g : Globals) (up : Upstream) (login : loginserv) :
    ∀ (fuel : Nat) (input : List CChar) (ev0 : List Event), input.length < fuel →
      (select_host_loop g up login fuel input ev0).isSome = true := by
  intro fuel
  induction fuel with
  | zero => intro input ev0 h; exact absurd h (Nat.not_lt_zero _)
  | succ n ih =>
    intro input ev0 hlen
    simp only [select_host_loop]
    split
    · rfl
    · split
      · rfl
      · split
        · rename_i hcond
          apply ih
          have hne : (channel_get_line 1024 input).2 ≠ [] := by
            intro h0
            have := hcond.2
            simp [is_channel_closed_or_eof, h0] at this
          have hin : input ≠ [] := by
            intro h0
            apply hne
            rw [h0]
            rfl
          have := (channel_get_line_loop_unread 1024 input
            { buffer := List.replicate 1024 0, pos := 0, out := [], stores := [] }).2 hin
          have h2 : (channel_get_line 1024 input).2.length < input.length := this
          omega
        · rfl

/-- Run of `select_host` always ends: the fuel given by `select_host` is enough. -/
theorem select_host_returns (g : Globals) (up : Upstream) (login : loginserv)
    (input : List CChar) : (select_host g up login input).isSome = true :=
  select_host_loop_returns g up login _ input _ (Nat.lt_succ_self _)

theorem match_server_sound (g : Globals) (login : loginserv) (line : CStr)
    (p : ServPtr) (u pw : CStr) (h : match_server g line login = some (p, u, pw)) :
    line = (g.deref p).adresse ∧ check_allowed_server login (g.deref p) = 1 ∧
      u = (login.servcred p).user ∧ pw = (login.servcred p).password := by
  have e1 := check_allowed_server_bool login g.server1
  have e2 := check_allowed_server_bool login g.server2
  have e3 := check_allowed_server_bool login g.server3
  simp only [match_server, strcmp_eq_zero] at h
  split at h
  · rename_i c
    simp only [Option.some.injEq, Prod.mk.injEq] at h
    obtain ⟨rfl, rfl, rfl⟩ := h
    refine ⟨c.1.symm, ?_, rfl, rfl⟩
    rcases e1 with e | e
    · exact absurd e c.2
    · exact e
  · split at h
    · rename_i c
      simp only [Option.some.injEq, Prod.mk.injEq] at h
      obtain ⟨rfl, rfl, rfl⟩ := h
      refine ⟨c.1.symm, ?_, rfl, rfl⟩
      rcases e2 with e | e
      · exact absurd e c.2
      · exact e
    · split at h
      · rename_i c
        simp only [Option.some.injEq, Prod.mk.injEq] at h
        obtain ⟨rfl, rfl, rfl⟩ := h
        refine ⟨c.1.symm, ?_, rfl, rfl⟩
        rcases e3 with e | e
        · exact absurd e c.2
        · exact e
      · exact absurd h (by simp)

theorem match_server_iff_on_menu (g : Globals) (login : loginserv) (line : CStr) :
    (match_server g line login).isSome = true ↔
      line ∈ menuLines (show_allowed_servers g login).2 := by
  have e1 := check_allowed_server_bool login g.server1
  have e2 := check_allowed_server_bool login g.server2
  have e3 := check_allowed_server_bool login g.server3
  have b1 : line = g.server1.adresse ↔ g.server1.adresse = line := eq_comm
  have b2 : line = g.server2.adresse ↔ g.server2.adresse = line := eq_comm
  have b3 : line = g.server3.adresse ↔ g.server3.adresse = line := eq_comm
  by_cases a1 : g.server1.adresse = line <;> by_cases a2 : g.server2.adresse = line <;>
    by_cases a3 : g.server3.adresse = line <;>
    rcases e1 with e1 | e1 <;> rcases e2 with e2 | e2 <;> rcases e3 with e3 | e3 <;>
    simp [match_server, strcmp_eq_zero, show_allowed_servers, show_block, menuLines, Event.puts,
      e1, e2, e3, b1, b2, b3, a1, a2, a3]

/-- C4: `match_server` returns a backend only for a line equal to that
backend's display address with the login on its ACL, and then with the login's
own credentials for it; a line is resolved exactly when `show_allowed_servers`
puts it on this login's menu, and a line not on the menu gives no backend.
`select_host` always returns, and every call it makes on the backend side
belongs to a `connect_to_host` for a line read from the client that
`match_server` resolved to an allowed backend shown on the menu, made with that
backend's port and the login's credentials for it. -/
theorem access_control_before_connect (g : Globals) (login : loginserv) (line : CStr) :
    (∀ p u pw, match_server g line login = some (p, u, pw) →
      line = (g.deref p).adresse ∧ check_allowed_server login (g.deref p) = 1 ∧
        u = (login.servcred p).user ∧ pw = (login.servcred p).password) ∧
    ((match_server g line login).isSome = true ↔
      line ∈ menuLines (show_allowed_servers g login).2) ∧
    (line ∉ menuLines (show_allowed_servers g login).2 → match_server g line login = none) ∧
    (∀ (up : Upstream) (input : List CChar), ∃ ev, select_host g up login input = some ev ∧
      ∀ e ∈ ev, contacts_backend e = true →
        ∃ unread p, unread <:+ input ∧
          match_server g (get_line 1024 unread) login
            = some (p, (login.servcred p).user, (login.servcred p).password) ∧
          get_line 1024 unread = (g.deref p).adresse ∧
          check_allowed_server login (g.deref p) = 1 ∧
          get_line 1024 unread ∈ menuLines (show_allowed_servers g login).2 ∧
          e ∈ (connect_to_host up (login.servcred p).user (login.servcred p).password
                (g.deref p).port (channel_get_line 1024 unread).2).1) := by
  refine ⟨fun p u pw h => match_server_sound g login line p u pw h,
    match_server_iff_on_menu g login line, ?_, ?_⟩
  · intro hnot
    cases hm : match_server g line login with
    | none => rfl
    | some r =>
      exact absurd ((match_server_iff_on_menu g login line).mp (by simp [hm])) hnot
  · intro up input
    cases hsel : select_host g up login input with
    | none =>
      have := select_host_returns g up login input
      simp [hsel] at this
    | some ev =>
      refine ⟨ev, rfl, ?_⟩
      intro e he hc
      obtain ⟨unread, p, u, pw, hsuf, hmatch, hin⟩ :=
        select_host_loop_contacts g up login _ input _ ev
          (quiet_puts (lit "welcome to spatch\r\n")) hsel e he hc
      obtain ⟨hline, hallowed, hu, hpw⟩ := match_server_sound g login _ p u pw hmatch
      subst hu
      subst hpw
      exact ⟨unread, p, hsuf, hmatch, hline, hallowed,
        (match_server_iff_on_menu g login _).mp (by simp [hmatch]), hin⟩

/-- C4 at the directory `sample`: the line `db` resolves to the first backend,
and the line `web`, whose backend does not list the login, resolves to nothing. -/
theorem access_control_before_connect_witness :
    (match_server sample (lit "db") alice = some (ServPtr.server1, lit "a1", lit "p1") ∧
      (lit "db" = (sample.deref ServPtr.server1).adresse ∧
        check_allowed_server alice (sample.deref ServPtr.server1) = 1 ∧
        lit "a1" = (alice.servcred ServPtr.server1).user ∧
        lit "p1" = (alice.servcred ServPtr.server1).password)) ∧
    (lit "web" ∉ menuLines (show_allowed_servers sample alice).2 ∧
      match_server sample (lit "web") alice = none) :=
  ⟨⟨by decide, (access_control_before_connect sample alice (lit "db")).1 _ _ _ (by decide)⟩,
    ⟨by decide, (access_control_before_connect sample alice (lit "web")).2.2.1 (by decide)⟩⟩

/-! ### Host verification -/

theorem tolower_eq_zero (c : CChar) : tolower c = 0 ↔ c = 0 := by
  have key : ∀ x : Int, (if 65 ≤ x ∧ x ≤ 90 then x + 32 else x) = 0 ↔ x = 0 := by
    intro x
    split <;> omega
  exact key c

theorem cstr_cons (a : CChar) (t : List CChar) :
    cstr (a :: t) = if a = 0 then [] else a :: cstr t := by
  unfold cstr
  rw [List.takeWhile_cons]
  by_cases h : a = 0 <;> simp [h]

theorem strncasecmp_cons (a : CChar) (t : List CChar) (y : CChar) (ys : List CChar) (n : Nat)
    (hy : tolower y = y) (hy0 : y ≠ 0) :
    strncasecmp (a :: t) (y :: ys) (n + 1) = 0 ↔
      tolower a = y ∧ strncasecmp t ys n = 0 := by
  simp only [strncasecmp, List.headD_cons, List.tail_cons, hy]
  by_cases h : tolower a = y
  · have h0 : tolower a ≠ 0 := by rw [h]; exact hy0
    simp [h, hy0]
  · have hsub : tolower a - y ≠ 0 := fun hc => h (sub_eq_zero.mp hc)
    simp [h, hsub]

theorem strncasecmp_nil (y : CChar) (ys : List CChar) (n : Nat)
    (hy : tolower y = y) (hy0 : y ≠ 0) :
    strncasecmp [] (y :: ys) (n + 1) ≠ 0 := by
  have t0 : tolower 0 = 0 := by decide
  have h1 : (0 : CChar) ≠ y := fun h => hy0 h.symm
  have h2 : (0 : CChar) - y ≠ 0 := fun hc => h1 (sub_eq_zero.mp hc)
  simp only [strncasecmp, List.headD_nil, List.headD_cons, hy, t0]
  simp [h1, h2, hy0]

/-- Comparison of a `char` array with a lower-case target over the target's
length: equality holds exactly when the string in the array starts, after
`tolower`, with the target. -/
theorem strncasecmp_lower (ys rest : List CChar) (hys : ∀ y ∈ ys, tolower y = y ∧ y ≠ 0) :
    ∀ buffer : List CChar, strncasecmp buffer (ys ++ rest) ys.length = 0 ↔
      ((cstr buffer).take ys.length).map tolower = ys := by
  induction ys with
  | nil => intro buffer; simp [strncasecmp]
  | cons y ys ih =>
    intro buffer
    have hy := hys y (List.mem_cons_self _ _)
    have ih2 := ih (fun z hz => hys z (List.mem_cons_of_mem _ hz))
    cases buffer with
    | nil =>
      have := strncasecmp_nil y (ys ++ rest) ys.length hy.1 hy.2
      simp only [List.cons_append, List.length_cons]
      constructor
      · intro h; exact absurd h this
      · intro h; simp [cstr] at h
    | cons a t =>
      simp only [List.cons_append, List.length_cons]
      rw [strncasecmp_cons a t y (ys ++ rest) ys.length hy.1 hy.2, ih2 t, cstr_cons]
      by_cases ha : a = 0
      · have : tolower a ≠ y := by
          intro h
          rw [ha] at h
          exact hy.2 (by rw [← h]; decide)
        simp [ha, this]
        intro h
        rw [ha] at this
        exact absurd h this
      · simp [ha]

theorem strncasecmp_yes (buffer : List CChar) :
    strncasecmp buffer [121, 101, 115, 0] 3 = 0 ↔
      ((cstr buffer).take 3).map tolower = [121, 101, 115] :=
  strncasecmp_lower [121, 101, 115] [0] (by decide) buffer

theorem verify_not_known_spec (up : Upstream) (input : List CChar) (pre : List Event)
    (hpre : ∀ e ∈ pre, contacts_backend e = false) (hpersist : 0 ≤ up.write_knownhost) :
    (((verify_not_known up input pre).ret = 1 ∧
        Event.ssh_write_knownhost ∈ (verify_not_known up input pre).events) ↔
      ((get_line 10 input).take 3).map tolower = [121, 101, 115]) ∧
    (((get_line 10 input).take 3).map tolower ≠ [121, 101, 115] →
      (verify_not_known up input pre).ret = 0 ∧
        Event.ssh_write_knownhost ∉ (verify_not_known up input pre).events) := by
  have hq : ∀ e ∈ pre ++ [Event.puts_stderr Chan.client (not_known_msg up.hexa)] ++
      (channel_get_line 10 input).1.out, contacts_backend e = false :=
    quiet_append (quiet_append hpre (by
      intro e he
      rw [List.mem_singleton] at he
      subst he
      rfl)) (channel_get_line_out 10 input)
  have hnot : Event.ssh_write_knownhost ∉ pre ++
      [Event.puts_stderr Chan.client (not_known_msg up.hexa)] ++
      (channel_get_line 10 input).1.out := by
    intro hin
    have := hq _ hin
    exact absurd this (by decide)
  have hlt : ¬ up.write_knownhost < 0 := not_lt.mpr hpersist
  by_cases hyes : ((get_line 10 input).take 3).map tolower = [121, 101, 115]
  · have hcmp : strncasecmp (channel_get_line 10 input).1.buffer [121, 101, 115, 0] 3 = 0 :=
      (strncasecmp_yes _).mpr hyes
    have hres : verify_not_known up input pre =
        { ret := 1,
          events := pre ++ [Event.puts_stderr Chan.client (not_known_msg up.hexa)] ++
            (channel_get_line 10 input).1.out ++ [Event.ssh_write_knownhost],
          input := (channel_get_line 10 input).2 } := by
      simp only [verify_not_known, hcmp, ne_eq, not_true_eq_false, if_false, hlt]
    rw [hres]
    refine ⟨⟨fun _ => hyes, fun _ => ⟨rfl, by simp⟩⟩, fun h => absurd hyes h⟩
  · have hcmp : strncasecmp (channel_get_line 10 input).1.buffer [121, 101, 115, 0] 3 ≠ 0 :=
      fun h => hyes ((strncasecmp_yes _).mp h)
    have hres : verify_not_known up input pre =
        { ret := 0,
          events := pre ++ [Event.puts_stderr Chan.client (not_known_msg up.hexa)] ++
            (channel_get_line 10 input).1.out,
          input := (channel_get_line 10 input).2 } := by
      simp only [verify_not_known, hcmp, ne_eq, not_false_eq_true, if_true]
    rw [hres]
    have h01 : ¬ ((0 : Int) = 1) := by decide
    refine ⟨⟨fun h => absurd h.1 h01, fun h => absurd h hyes⟩, fun _ => ⟨rfl, hnot⟩⟩

/-- C5 as stated fails for a line that only starts with `yes`: with an unknown
host key and a persist call that succeeds, the input `yesx` and carriage return
gives the line `yesx`, which is not `yes` in any letter case, and still the
key is persisted and the function returns 1. -/
theorem yes_head_is_accepted :
    fresh_host.known = ssh_server_known.SSH_SERVER_NOT_KNOWN ∧
    0 ≤ fresh_host.write_knownhost ∧
    get_line 10 (lit "yesx\r") = lit "yesx" ∧
    (get_line 10 (lit "yesx\r")).map tolower ≠ lit "yes" ∧
    (verify_knownhost fresh_host (lit "yesx\r")).ret = 1 ∧
    Event.ssh_write_knownhost ∈ (verify_knownhost fresh_host (lit "yesx\r")).events := by
  decide

/-- C5, amended: with an unknown host key (or no known-hosts file), the
fingerprint obtained and a persist call that succeeds, `verify_knownhost`
persists the key and returns 1 exactly when the first three bytes of the
entered line are `yes` in any letter case; for every other line it returns 0
without calling the persist operation. -/
theorem trust_on_first_use (up : Upstream) (input : List CChar)
    (hstate : up.known = ssh_server_known.SSH_SERVER_NOT_KNOWN ∨
      up.known = ssh_server_known.SSH_SERVER_FILE_NOT_FOUND)
    (hhash : 0 ≤ up.hlen) (hpersist : 0 ≤ up.write_knownhost) :
    (((verify_knownhost up input).ret = 1 ∧
        Event.ssh_write_knownhost ∈ (verify_knownhost up input).events) ↔
      ((get_line 10 input).take 3).map tolower = [121, 101, 115]) ∧
    (((get_line 10 input).take 3).map tolower ≠ [121, 101, 115] →
      (verify_knownhost up input).ret = 0 ∧
        Event.ssh_write_knownhost ∉ (verify_knownhost up input).events) := by
  have hlt : ¬ up.hlen < 0 := not_lt.mpr hhash
  rcases hstate with hs | hs
  · have : verify_knownhost up input = verify_not_known up input [] := by
      simp only [verify_knownhost, hlt, if_false, hs]
    rw [this]
    exact verify_not_known_spec up input [] (fun _ he => absurd he (List.not_mem_nil _)) hpersist
  · have : verify_knownhost up input =
        verify_not_known up input [Event.puts_stderr Chan.client file_not_found_msg] := by
      simp only [verify_knownhost, hlt, if_false, hs]
    rw [this]
    refine verify_not_known_spec up input _ ?_ hpersist
    intro e he
    rw [List.mem_singleton] at he
    subst he
    rfl

/-- C5 amended, at an unknown host and the answer `YES`. -/
theorem trust_on_first_use_witness :
    (fresh_host.known = ssh_server_known.SSH_SERVER_NOT_KNOWN ∨
      fresh_host.known = ssh_server_known.SSH_SERVER_FILE_NOT_FOUND) ∧
    0 ≤ fresh_host.hlen ∧ 0 ≤ fresh_host.write_knownhost ∧
    ((get_line 10 (lit "YES\r")).take 3).map tolower = [121, 101, 115] ∧
    (verify_knownhost fresh_host (lit "YES\r")).ret = 1 ∧
    Event.ssh_write_knownhost ∈ (verify_knownhost fresh_host (lit "YES\r")).events :=
  ⟨by decide, by decide, by decide, by decide,
    (trust_on_first_use fresh_host (lit "YES\r") (by decide) (by decide) (by decide)).1.mpr
      (by decide)⟩

/-- C6 as stated fails when the fingerprint cannot be computed: with a changed
host key and a negative `hlen` the function returns 0 at once and writes no
warning to the client channel. -/
theorem changed_key_without_hash_is_silent :
    changed_no_hash.known = ssh_server_known.SSH_SERVER_KNOWN_CHANGED ∧
    (verify_knownhost changed_no_hash (lit "yes\r")).ret = 0 ∧
    (verify_knownhost changed_no_hash (lit "yes\r")).events = [] := by
  decide

/-- C6, amended: with a changed host key and for every client input,
`verify_knownhost` returns 0, reads no client input and does not call the
persist operation; when the fingerprint was obtained (`hlen` not negative) its
only call is the write of the security warning to the client channel's error
stream, and the warning contains the fingerprint whole when that has at most
931 bytes.  `connect_to_host` then makes no call that creates or uses a backend
channel (none is created, no pty or shell is requested, the relay loop is not
entered), persists nothing, leaves the client input unread and, after a
successful connect and authentication, only adds its error line. -/
theorem changed_key_aborts (up : Upstream) (input : List CChar)
    (hstate : up.known = ssh_server_known.SSH_SERVER_KNOWN_CHANGED) :
    (verify_knownhost up input).ret = 0 ∧
    (verify_knownhost up input).input = input ∧
    Event.ssh_write_knownhost ∉ (verify_knownhost up input).events ∧
    (0 ≤ up.hlen → (verify_knownhost up input).events
      = [Event.puts_stderr Chan.client (changed_msg up.hexa)]) ∧
    (up.hexa.length ≤ 931 → changed_msg up.hexa
      = lit "Host key for server changed: it is now: " ++ up.hexa ++
        lit "\r\nFor security reasons, connection will be stopped\r\n") ∧
    (∀ (user password : CStr) (port : Int),
      (connect_to_host up user password port input).2 = input ∧
      (∀ e ∈ (connect_to_host up user password port input).1,
        backend_channel_call e = false ∧ e ≠ Event.ssh_write_knownhost) ∧
      (up.connect_ok = true → up.userauth_ok = true →
        (connect_to_host up user password port input).1
          = [Event.ssh_connect (lit "localhost") port, Event.ssh_userauth_password user password]
            ++ (verify_knownhost up input).events
            ++ [Event.puts Chan.client (lit "knownhost verification failed\r\n")])) := by
  have hv : verify_knownhost up input =
      { ret := 0,
        events := if up.hlen < 0 then [] else [Event.puts_stderr Chan.client (changed_msg up.hexa)],
        input := input } := by
    simp only [verify_knownhost, hstate]
    split <;> rfl
  have hev : ∀ e ∈ (if up.hlen < 0 then []
      else [Event.puts_stderr Chan.client (changed_msg up.hexa)]),
      backend_channel_call e = false ∧ e ≠ Event.ssh_write_knownhost := by
    intro e he
    split at he
    · exact absurd he (List.not_mem_nil _)
    · rw [List.mem_singleton] at he
      subst he
      exact ⟨rfl, by simp [Event.puts_stderr]⟩
  refine ⟨by rw [hv], by rw [hv], ?_, ?_, ?_, ?_⟩
  · rw [hv]
    intro hin
    exact (hev _ hin).2 rfl
  · intro h
    rw [hv]
    simp only [not_lt.mpr h, if_false]
  · intro hlen
    have h1 : (lit "Host key for server changed: it is now: ").length = 40 := by decide
    have h2 : (lit "\r\nFor security reasons, connection will be stopped\r\n").length = 52 := by
      decide
    unfold changed_msg snprintf
    apply List.take_of_length_le
    simp only [List.length_append, h1, h2]
    omega
  · intro user password port
    by_cases hl : up.hlen < 0 <;> cases hc : up.connect_ok <;> cases ha : up.userauth_ok <;>
      simp [connect_to_host, connect_chain, hc, ha, hv, hl, backend_channel_call, Event.puts,
        Event.puts_stderr]

/-- C6 amended, at a changed host key with the fingerprint `ab:cd`. -/
theorem changed_key_aborts_witness :
    changed_host.known = ssh_server_known.SSH_SERVER_KNOWN_CHANGED ∧
    (verify_knownhost changed_host (lit "yes\r")).ret = 0 ∧
    (verify_knownhost changed_host (lit "yes\r")).input = lit "yes\r" ∧
    (verify_knownhost changed_host (lit "yes\r")).events
      = [Event.puts_stderr Chan.client (changed_msg changed_host.hexa)] :=
  ⟨by decide,
    (changed_key_aborts changed_host (lit "yes\r") (by decide)).1,
    (changed_key_aborts changed_host (lit "yes\r") (by decide)).2.1,
    (changed_key_aborts changed_host (lit "yes\r") (by decide)).2.2.2.1 (by decide)⟩

end Spatch
